import Mathlib

/-!
Verification of the `ito` URL shortener (`src/main.rs`).

The program is an HTTP service over a SQLite table
`links(id INTEGER PRIMARY KEY AUTOINCREMENT, alias TEXT NOT NULL, target_url TEXT NOT NULL)`
with a unique index on `alias`.  We embed the store as a list of rows kept in
rowid (insertion) order together with the AUTOINCREMENT sequence counter, embed
each SQL statement the handlers issue, and embed the four handlers
(`root_handler`, `create_link`, `delete_link`, `redirect_to_target`) as pure
functions from store states to responses and successor states.
-/

namespace Ito

/-- Model of the `url` crate's `Url` value (external dependency of `main.rs`),
restricted to absolute URLs with a scheme and a host — the only shape the
handlers construct.  The crate stores the normalized serialization: scheme and
host are lowercased and an empty path serializes as `/`. -/
structure Url where
  scheme : String
  host : String
  path : String
deriving DecidableEq, Repr

/-- Scan for the first occurrence of the literal `://`, returning the
characters before it and the characters after it. -/
def splitSchemeAux : List Char → List Char → Option (List Char × List Char)
  | acc, ':' :: '/' :: '/' :: rest => some (acc.reverse, rest)
  | acc, c :: rest => splitSchemeAux (c :: acc) rest
  | _, [] => none

/-- Characters the model accepts in a host. -/
def isHostChar (c : Char) : Bool :=
  c.isAlphanum || c == '.' || c == '-'

/-- Model of `Url::parse` from the `url` crate (external dependency), for the
absolute `scheme://host[/path]` shape: a string with no `://`, an empty or
non-alphabetic scheme, or an empty or malformed host fails to parse
(e.g. `"not a url"` is rejected); scheme and host are lowercased and an empty
path becomes `/`, so the parsed value's serialization is normalized. -/
def parseUrl (s : String) : Option Url :=
  match splitSchemeAux [] s.data with
  | none => none
  | some (schemeChars, restChars) =>
    let hostChars := restChars.takeWhile (fun c => c ≠ '/')
    let pathChars := restChars.dropWhile (fun c => c ≠ '/')
    if !schemeChars.isEmpty && schemeChars.all Char.isAlpha
        && !hostChars.isEmpty && hostChars.all isHostChar then
      some
        { scheme := (schemeChars.map Char.toLower).asString
          host := (hostChars.map Char.toLower).asString
          path := if pathChars.isEmpty then "/" else pathChars.asString }
    else
      none

/-- `Url::to_string`: the serialization the program writes to the database and
into redirect `Location` values. -/
def serializeUrl (u : Url) : String :=
  u.scheme ++ "://" ++ u.host ++ u.path

/-- A row of the `links` table (`struct Link` in `main.rs`). -/
structure Link where
  id : Int
  «alias» : String
  target_url : Url
deriving DecidableEq, Repr

/-- The SQLite store: the rows of `links` in rowid order, plus the
AUTOINCREMENT sequence (the largest id ever assigned). -/
structure Store where
  rows : List Link
  seq : Int
deriving DecidableEq, Repr

/-- The store right after the idempotent schema creation in `main`. -/
def Store.empty : Store := ⟨[], 0⟩

/-- SQLite error codes the program distinguishes in `handle_sqlite_err`. -/
inductive SqliteErrorCode
  | constraintViolation
  | otherCode
deriving DecidableEq, Repr

/-- The `rusqlite::Error` cases the program distinguishes. -/
inductive SqliteError
  | sqliteFailure (code : SqliteErrorCode)
  | queryReturnedNoRows
deriving DecidableEq, Repr

/-- `INSERT INTO links (alias, target_url) VALUES (?1, ?2)`: the unique index
`idx_links_alias` makes an insert with an already-present alias fail with a
constraint violation and no change to the table; otherwise AUTOINCREMENT
assigns the next id and the row is appended. -/
def sqlInsert (st : Store) (a : String) (u : Url) : Except SqliteError Store :=
  if st.rows.any (fun l => l.«alias» == a) then
    .error (.sqliteFailure .constraintViolation)
  else
    .ok ⟨st.rows ++ [⟨st.seq + 1, a, u⟩], st.seq + 1⟩

/-- `SELECT target_url FROM links WHERE alias = ?` via `query_row_and_then`:
the first matching row in scan order, or `QueryReturnedNoRows`. -/
def sqlFindTarget (st : Store) (a : String) : Except SqliteError Url :=
  match st.rows.find? (fun l => l.«alias» == a) with
  | some l => .ok l.target_url
  | none => .error .queryReturnedNoRows

/-- `DELETE FROM links WHERE id = ?`: removes every row with that id; deleting
an absent id affects no rows and is not an error. -/
def sqlDeleteById (st : Store) (i : Int) : Store :=
  ⟨st.rows.filter (fun l => l.id != i), st.seq⟩

/-- `SELECT id, alias, target_url from links`: a full table scan, which SQLite
performs in rowid order. -/
def sqlList (st : Store) : List Link := st.rows

/-- `handle_sqlite_err` in `main.rs`, mapping SQLite errors to HTTP status
codes: constraint violation → 400, no rows → 404, anything else → 500. -/
def handle_sqlite_err : SqliteError → Nat
  | .sqliteFailure .constraintViolation => 400
  | .sqliteFailure .otherCode => 500
  | .queryReturnedNoRows => 404

/-- An HTTP response, as far as the claims are concerned: the status code and
the `Location` value when the response is a redirect. -/
structure Response where
  status : Nat
  location : Option String
deriving DecidableEq, Repr

/-- The `create_link` handler, including the `Form<CreateLinkInput>`
extraction: deserializing `target_url : Url` runs `Url::parse`, and a parse
failure rejects the request with 400 before the handler body runs (axum's
`FailedToDeserializeForm`).  On success the row is inserted and the handler
replies `Redirect::to("/")`, a 303; an insert error goes through
`handle_sqlite_err`. -/
def create_link (st : Store) (a t : String) : Response × Store :=
  match parseUrl t with
  | none => (⟨400, none⟩, st)
  | some u =>
    match sqlInsert st a u with
    | .error e => (⟨handle_sqlite_err e, none⟩, st)
    | .ok st' => (⟨303, some "/"⟩, st')

/-- The `delete_link` handler: executes the delete and replies `Ok(())`,
a 200, regardless of whether the id was present. -/
def delete_link (st : Store) (i : Int) : Response × Store :=
  (⟨200, none⟩, sqlDeleteById st i)

/-- The `redirect_to_target` handler: looks the alias up and replies
`Redirect::to(target_url.to_string())`, a 303; a lookup error goes through
`handle_sqlite_err`. -/
def redirect_to_target (st : Store) (a : String) : Response :=
  match sqlFindTarget st a with
  | .ok u => ⟨303, some (serializeUrl u)⟩
  | .error e => ⟨handle_sqlite_err e, none⟩

/-- The `root_handler`: the list of links handed to the page template, in the
order the table scan produces them. -/
def root_handler (st : Store) : List Link := sqlList st

/-- The `favicon` handler: 204 No Content. -/
def favicon : Nat := 204

/-- The operations a request can dispatch to (the router in `main`). -/
inductive Op
  | createOp (a t : String)
  | deleteOp (i : Int)
  | resolveOp (a : String)
  | listOp

/-- The store state after serving one request.  `redirect_to_target` and
`root_handler` only run `SELECT` statements and leave the store unchanged. -/
def applyOp (st : Store) : Op → Store
  | .createOp a t => (create_link st a t).2
  | .deleteOp i => (delete_link st i).2
  | .resolveOp _ => st
  | .listOp => st

/-- The store states reachable from the freshly created schema by serving
requests. -/
inductive Reachable : Store → Prop
  | init : Reachable Store.empty
  | step (st : Store) (op : Op) : Reachable st → Reachable (applyOp st op)

example : parseUrl "not a url" = none := by decide
example : parseUrl "https://EXAMPLE.com" = some ⟨"https", "example.com", "/"⟩ := by decide
example : serializeUrl ⟨"https", "example.com", "/"⟩ = "https://example.com/" := by decide
example : parseUrl "https://example.com/x?q=1" =
    some ⟨"https", "example.com", "/x?q=1"⟩ := by decide

/-! ### Basic lemmas about the embedded operations -/

lemma any_alias_false {rows : List Link} {a : String}
    (h : ∀ l ∈ rows, l.«alias» ≠ a) :
    rows.any (fun l => l.«alias» == a) = false := by
  rw [List.any_eq_false]
  intro l hl
  simpa using h l hl

lemma any_alias_true {rows : List Link} {a : String}
    (h : ∃ l ∈ rows, l.«alias» = a) :
    rows.any (fun l => l.«alias» == a) = true := by
  rw [List.any_eq_true]
  obtain ⟨l, hl, he⟩ := h
  exact ⟨l, hl, by simpa using he⟩

/-- A fresh-alias create with a parsable target appends one row with the next
AUTOINCREMENT id and replies with the redirect to `/`. -/
lemma create_link_fresh (st : Store) (a t : String) (u : Url)
    (hu : parseUrl t = some u) (ha : ∀ l ∈ st.rows, l.«alias» ≠ a) :
    create_link st a t =
      (⟨303, some "/"⟩, ⟨st.rows ++ [⟨st.seq + 1, a, u⟩], st.seq + 1⟩) := by
  simp [create_link, sqlInsert, hu, any_alias_false ha]

/-- A create whose alias is already present fails with 400 and leaves the
store untouched. -/
lemma create_link_dup (st : Store) (a t : String) (u : Url)
    (hu : parseUrl t = some u) (hdup : ∃ l ∈ st.rows, l.«alias» = a) :
    create_link st a t = (⟨400, none⟩, st) := by
  simp [create_link, sqlInsert, hu, any_alias_true hdup, handle_sqlite_err]

/-- Resolving an alias no stored link carries yields the 404 response. -/
lemma resolve_fresh (st : Store) (a : String)
    (ha : ∀ l ∈ st.rows, l.«alias» ≠ a) :
    redirect_to_target st a = ⟨404, none⟩ := by
  have hf : st.rows.find? (fun l => l.«alias» == a) = none := by
    rw [List.find?_eq_none]
    intro l hl
    simpa using ha l hl
  simp [redirect_to_target, sqlFindTarget, hf, handle_sqlite_err]

lemma find?_append_of_none {α : Type} (p : α → Bool) {l₁ : List α}
    (l₂ : List α) (h : l₁.find? p = none) :
    (l₁ ++ l₂).find? p = l₂.find? p := by
  induction l₁ with
  | nil => simp
  | cons x xs ih =>
    cases hpx : p x with
    | true =>
      rw [List.find?_cons_of_pos _ hpx] at h
      cases h
    | false =>
      rw [List.find?_cons_of_neg _ (by simp [hpx])] at h
      rw [List.cons_append, List.find?_cons_of_neg _ (by simp [hpx])]
      exact ih h

/-- After appending a row with a previously absent alias, looking that alias
up finds exactly the new row. -/
lemma find_appended (st : Store) (a : String) (u : Url) (i : Int)
    (ha : ∀ l ∈ st.rows, l.«alias» ≠ a) :
    sqlFindTarget ⟨st.rows ++ [⟨i, a, u⟩], st.seq + 1⟩ a = Except.ok u := by
  have hnone : st.rows.find? (fun l => l.«alias» == a) = none := by
    rw [List.find?_eq_none]
    intro l hl
    simpa using ha l hl
  simp [sqlFindTarget, find?_append_of_none _ _ hnone, List.find?]

/-- In a table whose aliases are pairwise distinct, filtering on the alias of
a present row returns exactly that row. -/
lemma filter_alias_unique :
    ∀ rows : List Link, (rows.map Link.«alias»).Nodup →
      ∀ l ∈ rows, rows.filter (fun x => x.«alias» == l.«alias») = [l] := by
  intro rows
  induction rows with
  | nil =>
    intro _ l hl
    cases hl
  | cons y ys ih =>
    intro hnd l hl
    simp only [List.map_cons, List.nodup_cons] at hnd
    obtain ⟨hy, hys⟩ := hnd
    rcases List.mem_cons.mp hl with rfl | hl
    · rw [List.filter_cons_of_pos (by simp)]
      have hnil : ys.filter (fun x => x.«alias» == l.«alias») = [] := by
        rw [List.filter_eq_nil_iff]
        intro x hx
        simp only [beq_iff_eq]
        intro hc
        exact hy (hc ▸ List.mem_map_of_mem Link.«alias» hx)
      rw [hnil]
    · have hne : y.«alias» ≠ l.«alias» := by
        intro hc
        exact hy (hc ▸ List.mem_map_of_mem Link.«alias» hl)
      rw [List.filter_cons_of_neg (by simp [hne])]
      exact ih hys l hl

/-! ### The store invariant maintained by every request -/

/-- Invariant of the SQLite table: every id stays at or below the
AUTOINCREMENT sequence, rows appear in strictly increasing id order, and the
unique index keeps aliases pairwise distinct. -/
def Store.Inv (st : Store) : Prop :=
  (∀ l ∈ st.rows, l.id ≤ st.seq) ∧
    (st.rows.map Link.id).Sorted (· < ·) ∧
    (st.rows.map Link.«alias»).Nodup

lemma inv_empty : Store.empty.Inv := by
  refine ⟨?_, ?_, ?_⟩ <;> simp [Store.empty, List.Sorted]

lemma inv_insert (st : Store) (a : String) (u : Url) (hinv : st.Inv)
    (ha : ∀ l ∈ st.rows, l.«alias» ≠ a) :
    Store.Inv ⟨st.rows ++ [⟨st.seq + 1, a, u⟩], st.seq + 1⟩ := by
  obtain ⟨hb, hs, hn⟩ := hinv
  refine ⟨?_, ?_, ?_⟩
  · intro l hl
    rcases List.mem_append.mp hl with h | h
    · have hstep : st.seq ≤ st.seq + 1 := by omega
      exact le_trans (hb l h) hstep
    · simp only [List.mem_singleton] at h
      subst h
      exact le_refl _
  · rw [List.map_append]
    refine List.pairwise_append.mpr ⟨hs, by simp, ?_⟩
    intro x hx y hy
    simp only [List.map_cons, List.map_nil, List.mem_singleton] at hy
    subst hy
    obtain ⟨l, hl, rfl⟩ := List.mem_map.mp hx
    have := hb l hl
    omega
  · rw [List.map_append]
    refine List.Nodup.append hn (by simp) ?_
    intro x hx hx'
    simp only [List.map_cons, List.map_nil, List.mem_singleton] at hx'
    subst hx'
    obtain ⟨l, hl, ha'⟩ := List.mem_map.mp hx
    exact ha l hl ha'

lemma inv_delete (st : Store) (i : Int) (hinv : st.Inv) :
    (sqlDeleteById st i).Inv := by
  obtain ⟨hb, hs, hn⟩ := hinv
  refine ⟨?_, ?_, ?_⟩
  · intro l hl
    exact hb l (List.mem_of_mem_filter hl)
  · exact List.Pairwise.sublist ((List.filter_sublist _).map Link.id) hs
  · exact List.Nodup.sublist ((List.filter_sublist _).map Link.«alias») hn

lemma inv_applyOp (st : Store) (op : Op) (h : st.Inv) : (applyOp st op).Inv := by
  cases op with
  | createOp a t =>
    show Store.Inv (create_link st a t).2
    cases hp : parseUrl t with
    | none => simpa [create_link, hp] using h
    | some u =>
      cases hany : st.rows.any (fun l => l.«alias» == a) with
      | true => simpa [create_link, sqlInsert, hp, hany] using h
      | false =>
        have ha : ∀ l ∈ st.rows, l.«alias» ≠ a := by
          intro l hl
          have := List.any_eq_false.mp hany l hl
          simpa using this
        simpa [create_link, sqlInsert, hp, hany] using inv_insert st a u h ha
  | deleteOp i => exact inv_delete st i h
  | resolveOp a => exact h
  | listOp => exact h

/-- Every reachable store state satisfies the invariant. -/
lemma reachable_inv {st : Store} (h : Reachable st) : st.Inv := by
  induction h with
  | init => exact inv_empty
  | step st op _ ih => exact inv_applyOp st op ih

lemma resolve_of_found (st : Store) (a : String) (u : Url)
    (h : sqlFindTarget st a = Except.ok u) :
    redirect_to_target st a = ⟨303, some (serializeUrl u)⟩ := by
  simp [redirect_to_target, h]

/-! ### The claims -/

/-- Claim C1: for every store state and every alias not already present,
inserting a Link with that alias and a valid absolute target_url and then
resolving that alias yields the same target_url — the lookup finds exactly the
stored `Url` value and the redirect carries its serialization. -/
theorem c1_create_then_resolve_roundtrip (st : Store) (a t : String) (u : Url)
    (hu : parseUrl t = some u) (ha : ∀ l ∈ st.rows, l.«alias» ≠ a) :
    sqlFindTarget (create_link st a t).2 a = Except.ok u ∧
    redirect_to_target (create_link st a t).2 a = ⟨303, some (serializeUrl u)⟩ := by
  rw [create_link_fresh st a t u hu ha]
  have hfind := find_appended st a u (st.seq + 1) ha
  exact ⟨hfind, resolve_of_found _ a u hfind⟩

/-- Witness for C1 at the empty store, alias `foo`,
target `https://example.com`. -/
theorem c1_roundtrip_witness :
    sqlFindTarget (create_link Store.empty "foo" "https://example.com").2 "foo" =
      Except.ok ⟨"https", "example.com", "/"⟩ ∧
    redirect_to_target (create_link Store.empty "foo" "https://example.com").2
        "foo" =
      ⟨303, some (serializeUrl ⟨"https", "example.com", "/"⟩)⟩ :=
  c1_create_then_resolve_roundtrip Store.empty "foo" "https://example.com"
    ⟨"https", "example.com", "/"⟩ (by decide)
    (by intro l hl; simp [Store.empty] at hl)

/-- Claim C2: inserting a second Link with an alias already present fails with
the constraint-violation 400 (not a generic 500), the store is unchanged, and
the store still contains exactly one Link for that alias carrying its original
target_url. -/
theorem c2_duplicate_alias_rejected (st : Store) (hR : Reachable st) (l : Link)
    (hl : l ∈ st.rows) (t : String) (u : Url) (hu : parseUrl t = some u) :
    (create_link st l.«alias» t).1 = ⟨400, none⟩ ∧
    (create_link st l.«alias» t).2 = st ∧
    (create_link st l.«alias» t).2.rows.filter
      (fun x => x.«alias» == l.«alias») = [l] := by
  have hd := create_link_dup st l.«alias» t u hu ⟨l, hl, rfl⟩
  refine ⟨by rw [hd], by rw [hd], ?_⟩
  rw [hd]
  exact filter_alias_unique st.rows (reachable_inv hR).2.2 l hl

/-- Witness for C2: insert `foo` into the empty store, then insert `foo`
again. -/
theorem c2_duplicate_witness :
    (create_link (applyOp Store.empty (Op.createOp "foo" "https://example.com"))
        "foo" "https://example.com").1 = ⟨400, none⟩ ∧
    (create_link (applyOp Store.empty (Op.createOp "foo" "https://example.com"))
        "foo" "https://example.com").2 =
      applyOp Store.empty (Op.createOp "foo" "https://example.com") ∧
    (create_link (applyOp Store.empty (Op.createOp "foo" "https://example.com"))
        "foo" "https://example.com").2.rows.filter
      (fun x => x.«alias» == "foo") =
      [⟨1, "foo", ⟨"https", "example.com", "/"⟩⟩] :=
  c2_duplicate_alias_rejected
    (applyOp Store.empty (Op.createOp "foo" "https://example.com"))
    (Reachable.step _ _ Reachable.init)
    ⟨1, "foo", ⟨"https", "example.com", "/"⟩⟩ (by decide)
    "https://example.com" ⟨"https", "example.com", "/"⟩ (by decide)

/-- Claim C3: resolving an alias for which no Link is present fails with
`QueryReturnedNoRows` and is surfaced as HTTP 404, not any other status. -/
theorem c3_unknown_alias_404 (st : Store) (a : String)
    (ha : ∀ l ∈ st.rows, l.«alias» ≠ a) :
    redirect_to_target st a = ⟨404, none⟩ :=
  resolve_fresh st a ha

/-- Witness for C3 at the empty store. -/
theorem c3_unknown_alias_witness :
    redirect_to_target Store.empty "missing" = ⟨404, none⟩ :=
  c3_unknown_alias_404 Store.empty "missing"
    (by intro l hl; simp [Store.empty] at hl)

/-- Claim C4: deleting a present id removes exactly that Link from subsequent
`list()` results and leaves every other Link unchanged; deleting an absent id
is a no-op and, in either case, the handler replies 200 with no error. -/
theorem c4_delete_by_id (st : Store) (i : Int) :
    (delete_link st i).1 = ⟨200, none⟩ ∧
    (∀ l : Link, l ∈ root_handler (delete_link st i).2 ↔
      l ∈ root_handler st ∧ l.id ≠ i) ∧
    (delete_link st i).2.rows = st.rows.filter (fun l => l.id != i) ∧
    ((∀ l ∈ st.rows, l.id ≠ i) → (delete_link st i).2 = st) := by
  refine ⟨rfl, ?_, rfl, ?_⟩
  · intro l
    simp [root_handler, sqlList, delete_link, sqlDeleteById, List.mem_filter,
      bne_iff_ne]
  · intro h
    have hself : st.rows.filter (fun l => l.id != i) = st.rows := by
      rw [List.filter_eq_self]
      intro l hl
      simpa using h l hl
    show (⟨st.rows.filter (fun l => l.id != i), st.seq⟩ : Store) = st
    rw [hself]

/-- Witness for C4: delete id 1 out of the one-row store, and the theorem's
no-op clause instantiated there as well. -/
theorem c4_delete_witness :
    (delete_link (applyOp Store.empty (Op.createOp "foo" "https://example.com"))
        1).1 = ⟨200, none⟩ ∧
    (∀ l : Link,
      l ∈ root_handler (delete_link
        (applyOp Store.empty (Op.createOp "foo" "https://example.com")) 1).2 ↔
      l ∈ root_handler
        (applyOp Store.empty (Op.createOp "foo" "https://example.com")) ∧
      l.id ≠ 1) ∧
    (delete_link (applyOp Store.empty (Op.createOp "foo" "https://example.com"))
        1).2.rows =
      (applyOp Store.empty
        (Op.createOp "foo" "https://example.com")).rows.filter
        (fun l => l.id != 1) ∧
    ((∀ l ∈ (applyOp Store.empty
        (Op.createOp "foo" "https://example.com")).rows, l.id ≠ 1) →
      (delete_link (applyOp Store.empty
        (Op.createOp "foo" "https://example.com")) 1).2 =
      applyOp Store.empty (Op.createOp "foo" "https://example.com")) :=
  c4_delete_by_id (applyOp Store.empty (Op.createOp "foo" "https://example.com")) 1

/-- Claim C5: a create request whose target_url does not parse as an absolute
URL (such as `not a url`) is rejected with 400, and the store is unchanged —
no row is inserted. -/
theorem c5_invalid_url_rejected (st : Store) (a t : String)
    (ht : parseUrl t = none) :
    create_link st a t = (⟨400, none⟩, st) := by
  simp [create_link, ht]

/-- Witness for C5 at the string `not a url`. -/
theorem c5_invalid_url_witness :
    parseUrl "not a url" = none ∧
    create_link Store.empty "foo" "not a url" = (⟨400, none⟩, Store.empty) :=
  ⟨by decide, c5_invalid_url_rejected Store.empty "foo" "not a url" (by decide)⟩

/-- Claim C6: on every reachable store state the list operation behind
`GET /` returns all stored Links in insertion order, that is, with strictly
ascending ids. -/
theorem c6_list_in_insertion_order (st : Store) (hR : Reachable st) :
    root_handler st = st.rows ∧
    ((root_handler st).map Link.id).Sorted (· < ·) :=
  ⟨rfl, (reachable_inv hR).2.1⟩

/-- Witness for C6 on the store reached by two inserts. -/
theorem c6_list_witness :
    root_handler (applyOp
      (applyOp Store.empty (Op.createOp "foo" "https://example.com"))
      (Op.createOp "bar" "https://example.org")) =
      (applyOp (applyOp Store.empty (Op.createOp "foo" "https://example.com"))
        (Op.createOp "bar" "https://example.org")).rows ∧
    ((root_handler (applyOp
      (applyOp Store.empty (Op.createOp "foo" "https://example.com"))
      (Op.createOp "bar" "https://example.org"))).map Link.id).Sorted (· < ·) :=
  c6_list_in_insertion_order
    (applyOp (applyOp Store.empty (Op.createOp "foo" "https://example.com"))
      (Op.createOp "bar" "https://example.org"))
    (Reachable.step _ _ (Reachable.step _ _ Reachable.init))

/-- Claim C7: every successful create (fresh alias, parsable absolute
target_url) replies with the 303 redirect whose target is `/`. -/
theorem c7_create_redirects_to_root (st : Store) (a t : String) (u : Url)
    (hu : parseUrl t = some u) (ha : ∀ l ∈ st.rows, l.«alias» ≠ a) :
    (create_link st a t).1 = ⟨303, some "/"⟩ := by
  rw [create_link_fresh st a t u hu ha]

/-- Witness for C7 at the empty store. -/
theorem c7_create_redirect_witness :
    (create_link Store.empty "bar" "https://example.org").1 =
      ⟨303, some "/"⟩ :=
  c7_create_redirects_to_root Store.empty "bar" "https://example.org"
    ⟨"https", "example.org", "/"⟩ (by decide)
    (by intro l hl; simp [Store.empty] at hl)

/-- Claim C8: alias matching is case-sensitive and unnormalized — after
storing alias `a`, resolving an alias `b` that differs from `a` only in letter
case (and matches no other stored alias) yields 404 rather than the stored
target, and `b` can still be inserted alongside `a`. -/
theorem c8_alias_case_sensitive (st : Store) (a b t : String) (u : Url)
    (hu : parseUrl t = some u) (hab : a ≠ b)
    (hcase : a.data.map Char.toLower = b.data.map Char.toLower)
    (ha : ∀ l ∈ st.rows, l.«alias» ≠ a) (hb : ∀ l ∈ st.rows, l.«alias» ≠ b) :
    redirect_to_target (create_link st a t).2 b = ⟨404, none⟩ ∧
    (create_link (create_link st a t).2 b t).1 = ⟨303, some "/"⟩ := by
  rw [create_link_fresh st a t u hu ha]
  have hb' : ∀ l ∈ st.rows ++ [(⟨st.seq + 1, a, u⟩ : Link)], l.«alias» ≠ b := by
    intro l hl
    rcases List.mem_append.mp hl with h | h
    · exact hb l h
    · simp only [List.mem_singleton] at h
      subst h
      exact hab
  constructor
  · exact resolve_fresh _ b hb'
  · rw [create_link_fresh _ b t u hu hb']

/-- Witness for C8: `foo` versus `Foo`. -/
theorem c8_case_witness :
    redirect_to_target (create_link Store.empty "foo" "https://example.com").2
      "Foo" = ⟨404, none⟩ ∧
    (create_link (create_link Store.empty "foo" "https://example.com").2 "Foo"
      "https://example.com").1 = ⟨303, some "/"⟩ :=
  c8_alias_case_sensitive Store.empty "foo" "Foo" "https://example.com"
    ⟨"https", "example.com", "/"⟩ (by decide) (by decide) (by decide)
    (by intro l hl; simp [Store.empty] at hl)
    (by intro l hl; simp [Store.empty] at hl)

/-- Claim C9: no request ever modifies the id, alias or target_url of an
existing Link — serving any single request either leaves the store unchanged,
appends one new Link, or removes whole rows by id. -/
theorem c9_links_immutable (st : Store) (op : Op) :
    applyOp st op = st ∨
    (∃ l : Link, (applyOp st op).rows = st.rows ++ [l] ∧ l ∉ st.rows) ∨
    (∃ i : Int, (applyOp st op).rows = st.rows.filter (fun l => l.id != i)) := by
  cases op with
  | createOp a t =>
    cases hp : parseUrl t with
    | none =>
      left
      simp [applyOp, create_link, hp]
    | some u =>
      cases hany : st.rows.any (fun l => l.«alias» == a) with
      | true =>
        left
        simp [applyOp, create_link, sqlInsert, hp, hany]
      | false =>
        right; left
        refine ⟨⟨st.seq + 1, a, u⟩, ?_, ?_⟩
        · simp [applyOp, create_link, sqlInsert, hp, hany]
        · intro hmem
          have hcontra := List.any_eq_false.mp hany _ hmem
          simp at hcontra
  | deleteOp i =>
    right; right
    exact ⟨i, rfl⟩
  | resolveOp a => left; rfl
  | listOp => left; rfl

/-- Claim C10: the target_url stored on create is the parsed, normalized URL
value, and the redirect issued on resolution carries its serialization — which
can differ character-for-character from the submitted string, as
`https://EXAMPLE.com` becomes `https://example.com/`. -/
theorem c10_normalized_url_stored (st : Store) (a t : String) (u : Url)
    (hu : parseUrl t = some u) (ha : ∀ l ∈ st.rows, l.«alias» ≠ a) :
    (create_link st a t).2.rows = st.rows ++ [⟨st.seq + 1, a, u⟩] ∧
    redirect_to_target (create_link st a t).2 a =
      ⟨303, some (serializeUrl u)⟩ := by
  rw [create_link_fresh st a t u hu ha]
  exact ⟨rfl, resolve_of_found _ a u (find_appended st a u (st.seq + 1) ha)⟩

/-- Witness for C10: submitting `https://EXAMPLE.com` stores and redirects to
`https://example.com/`, which differs from the submitted string. -/
theorem c10_normalized_witness :
    parseUrl "https://EXAMPLE.com" = some ⟨"https", "example.com", "/"⟩ ∧
    serializeUrl ⟨"https", "example.com", "/"⟩ = "https://example.com/" ∧
    "https://example.com/" ≠ "https://EXAMPLE.com" ∧
    redirect_to_target (create_link Store.empty "go" "https://EXAMPLE.com").2
      "go" = ⟨303, some (serializeUrl ⟨"https", "example.com", "/"⟩)⟩ :=
  ⟨by decide, by decide, by decide,
    (c10_normalized_url_stored Store.empty "go" "https://EXAMPLE.com"
      ⟨"https", "example.com", "/"⟩ (by decide)
      (by intro l hl; simp [Store.empty] at hl)).2⟩

end Ito
